import Mathlib

/-!
Verification of the Auto-Trade Coordination Core of the nexgent trading
engine, as a shallow embedding in Lean 4.

The embedding follows the TypeScript sources:
* auto-trade-market-cap-guard (bundled with token-metadata-service.ts):
  `hasAutoTradeMarketCapBounds`, `evaluateAutoTradeMarketCapGuard`;
* the Jupiter token-metrics TTL cache: `fetchTokenMetrics`, `cacheResult`;
* auto-trade-reentry-manager.service.ts: `handlePositionClosed`;
* auto-trade-reconciliation-manager.service.ts: `reconcileToken`,
  `reconcileAgent`;
* redis-position-service.ts: `deleteWalletPositions`;
* the config-save immediate-buy trigger: `getImmediateAutoTradeTokens`
  and the purchase loop of `updateAgentTradingConfig`.

JavaScript numbers that only ever flow through comparisons are modelled as
rationals; `undefined`/`null` fields as `Option`; awaited collaborator calls
(idempotency store, config loader, Prisma queries, metrics provider, trade
executor) as explicit oracle functions in an environment record, and their
observable invocations as traces.
-/

namespace Nexgent

/-- Token metrics returned from Jupiter (subset of MintInformation);
all fields can be null if the API does not return them. -/
structure TokenMetrics where
  mcap : Option ℚ
  liquidity : Option ℚ
  holderCount : Option ℚ
deriving Repr, DecidableEq

/-- Per-token market-cap bounds: the Pick of AutoTradeTokenConfig used by the
guard; absent fields are `none`. -/
structure TokenMarketCapBounds where
  marketCapMin : Option ℚ
  marketCapMax : Option ℚ
deriving Repr, DecidableEq

/-- Result of evaluating auto-trade market-cap policy for a token.
`reason` holds exactly the string the source returns; the spec abbreviates
these to no_bounds_configured, metrics_unavailable, below_min, above_max,
in_range. -/
structure AutoTradeMarketCapGuardResult where
  allowed : Bool
  reason : String
  marketCap : Option ℚ
deriving Repr, DecidableEq

/-- `hasAutoTradeMarketCapBounds(tokenBounds)`: true iff bounds are present
and at least one of min/max is non-null. -/
def hasAutoTradeMarketCapBounds : Option TokenMarketCapBounds → Bool
  | none => false
  | some b => b.marketCapMin.isSome || b.marketCapMax.isSome

/-- `evaluateAutoTradeMarketCapGuard({tokenAddress, tokenBounds})`, with the
awaited `fetchTokenMetrics` abstracted as the oracle `fetch`.  The second
component counts the invocations of `fetch` made by the evaluation (the
source calls it exactly once on the bounds-configured path and never
otherwise). -/
def evaluateAutoTradeMarketCapGuard (fetch : String → Option TokenMetrics)
    (tokenAddress : String) (tokenBounds : Option TokenMarketCapBounds) :
    AutoTradeMarketCapGuardResult × Nat :=
  if !hasAutoTradeMarketCapBounds tokenBounds then
    (⟨true, "no_market_cap_bounds_configured", none⟩, 0)
  else
    -- const metrics = await fetchTokenMetrics(tokenAddress);
    -- const marketCap = metrics?.mcap ?? null;
    match (fetch tokenAddress).bind (fun m => m.mcap) with
    | none => (⟨false, "market_cap_unavailable", none⟩, 1)
    | some marketCap =>
      if (tokenBounds.bind (fun b => b.marketCapMin)).any
          (fun mn => decide (marketCap < mn)) then
        (⟨false, "market_cap_below_min", some marketCap⟩, 1)
      else if (tokenBounds.bind (fun b => b.marketCapMax)).any
          (fun mx => decide (marketCap > mx)) then
        (⟨false, "market_cap_above_max", some marketCap⟩, 1)
      else
        (⟨true, "market_cap_in_range", some marketCap⟩, 1)

/-- The guard outcome for a resolved market cap, written from the spec's
words (section 4.1, steps 3-5) for the refinement claim C4: below_min when
min is set and the cap is under it, otherwise above_max when max is set and
the cap is over it, otherwise in_range, always echoing the cap. -/
def guardResultFromSpec (bounds : TokenMarketCapBounds) (m : ℚ) :
    AutoTradeMarketCapGuardResult :=
  match bounds.marketCapMin with
  | some mn =>
    if m < mn then ⟨false, "market_cap_below_min", some m⟩
    else
      match bounds.marketCapMax with
      | some mx =>
        if m > mx then ⟨false, "market_cap_above_max", some m⟩
        else ⟨true, "market_cap_in_range", some m⟩
      | none => ⟨true, "market_cap_in_range", some m⟩
  | none =>
    match bounds.marketCapMax with
    | some mx =>
      if m > mx then ⟨false, "market_cap_above_max", some m⟩
      else ⟨true, "market_cap_in_range", some m⟩
    | none => ⟨true, "market_cap_in_range", some m⟩

/-! Models of the JavaScript string primitives the sources lean on.
`String.prototype.toLowerCase` and `String.prototype.trim` are modelled by
structurally recursive functions over the character list (Lean's own
`String.toLower`/`String.trim` are extensionally the same but are not
kernel-reducible, which concrete runs below need). -/

/-- Model of `toLowerCase()`: lower-case every character. -/
def jsToLower (s : String) : String := ⟨s.data.map Char.toLower⟩

/-- Drop leading whitespace characters. -/
def trimLeadingChars : List Char → List Char
  | [] => []
  | c :: cs => if c.isWhitespace then trimLeadingChars cs else c :: cs

/-- Model of `trim()`: drop leading and trailing whitespace. -/
def jsTrim (s : String) : String :=
  ⟨(trimLeadingChars (trimLeadingChars s.data).reverse).reverse⟩

/-! Jupiter token-metrics TTL cache (`fetchTokenMetrics` / `cacheResult`). -/

/-- How long to serve cached metrics before re-fetching (ms). -/
def METRICS_CACHE_TTL_MS : Nat := 30000

/-- Cached metrics entry (includes null results so failures are not
re-fetched on every cycle). -/
structure CachedMetrics where
  metrics : Option TokenMetrics
  expiresAt : Nat
deriving Repr, DecidableEq

/-- The in-memory `metricsCache` Map keyed by tokenAddress. -/
structure MetricsCacheState where
  cache : String → Option CachedMetrics

/-- Observable outcome of one HTTP round-trip to the Jupiter search
endpoint: a thrown error or timeout, a non-ok status, an empty or
non-array body, or a first MintInformation item with its three nullable
fields. -/
inductive ProviderOutcome where
  | fetchError
  | httpNotOk
  | emptyResponse
  | success (mcap liquidity holderCount : Option ℚ)
deriving Repr, DecidableEq

/-- `cacheResult(tokenAddress, metrics)`: store a result with the
configured TTL, stamped from the current time. -/
def cacheResult (tokenAddress : String) (metrics : Option TokenMetrics)
    (now : Nat) (s : MetricsCacheState) : MetricsCacheState :=
  ⟨fun a => if a = tokenAddress then some ⟨metrics, now + METRICS_CACHE_TTL_MS⟩
            else s.cache a⟩

/-- Result of one `fetchTokenMetrics` call: the returned value, the cache
state afterwards, and whether the external provider was contacted. -/
structure FetchResult where
  result : Option TokenMetrics
  state : MetricsCacheState
  providerCalled : Bool

/-- Cache-miss tail of `fetchTokenMetrics`: bail out (uncached) when no API
key is configured, otherwise contact the provider and cache either the
parsed metrics or a null failure result, both under the TTL. -/
def fetchTokenMetricsMiss (apiKey : Option String)
    (provider : String → Nat → ProviderOutcome) (now : Nat)
    (tokenAddress : String) (s : MetricsCacheState) : FetchResult :=
  match apiKey with
  | none => ⟨none, s, false⟩
  | some _ =>
    match provider tokenAddress now with
    | .success mcap liquidity holderCount =>
      let metrics : TokenMetrics := ⟨mcap, liquidity, holderCount⟩
      ⟨some metrics, cacheResult tokenAddress (some metrics) now s, true⟩
    | _ => ⟨none, cacheResult tokenAddress none now s, true⟩

/-- `fetchTokenMetrics(tokenAddress)`: serve a live cache entry verbatim
(even a cached failure), otherwise fall through to the provider path.  The
wall clock and the provider are oracles. -/
def fetchTokenMetrics (apiKey : Option String)
    (provider : String → Nat → ProviderOutcome) (now : Nat)
    (tokenAddress : String) (s : MetricsCacheState) : FetchResult :=
  match s.cache tokenAddress with
  | some cached =>
    if now < cached.expiresAt then ⟨cached.metrics, s, false⟩
    else fetchTokenMetricsMiss apiKey provider now tokenAddress s
  | none => fetchTokenMetricsMiss apiKey provider now tokenAddress s

/-- One line of the observable log of a sequence of fetch calls. -/
structure FetchLogEntry where
  time : Nat
  tokenAddress : String
  providerCalled : Bool
  result : Option TokenMetrics
deriving Repr, DecidableEq

/-- Run a sequence of timed `fetchTokenMetrics` calls, threading the cache
state and logging each call. -/
def runFetches (apiKey : Option String)
    (provider : String → Nat → ProviderOutcome) :
    List (Nat × String) → MetricsCacheState → List FetchLogEntry
  | [], _ => []
  | (t, a) :: rest, s =>
    let r := fetchTokenMetrics apiKey provider t a s
    ⟨t, a, r.providerCalled, r.result⟩ :: runFetches apiKey provider rest r.state

/-! Agent trading configuration (the slice the auto-trade flows read). -/

/-- AutoTradeTokenConfig: one per-token tile of the agent's auto-trade
token list. -/
structure AutoTradeTokenConfig where
  address : String
  symbol : Option String
  enabled : Bool
  marketCapMin : Option ℚ
  marketCapMax : Option ℚ
deriving Repr, DecidableEq

/-- The autoTrade block of AgentTradingConfig. -/
structure AutoTradeSettings where
  enabled : Bool
  tokens : Option (List AutoTradeTokenConfig)
deriving Repr, DecidableEq

/-- AgentTradingConfig, restricted to the autoTrade block consumed by the
coordination core. -/
structure AgentTradingConfig where
  autoTrade : Option AutoTradeSettings
deriving Repr, DecidableEq

/-- The bounds slice of a token config (the Pick passed to the guard). -/
def AutoTradeTokenConfig.bounds (t : AutoTradeTokenConfig) :
    TokenMarketCapBounds :=
  ⟨t.marketCapMin, t.marketCapMax⟩

/-- JavaScript `x?.trim() || y`-style resolution step: a trimmed string when
present and non-empty (non-falsy), otherwise nothing. -/
def trimmedOrNone (o : Option String) : Option String :=
  match o.map jsTrim with
  | some s => if s.isEmpty then none else some s
  | none => none

/-- Argument record of one `tradingExecutor.executePurchase` invocation. -/
structure PurchaseCall where
  agentId : String
  walletAddress : Option String
  tokenAddress : String
  tokenSymbol : Option String
  signalId : Option Int
deriving Repr, DecidableEq

/-! Re-entry handler (`handlePositionClosed`). -/

/-- PositionClosedEvent.  The declared source union is
wallet_reset | trading | undefined; the handler compares it to the literal
string wallet_reset, so it is carried as an optional string. -/
structure PositionClosedEvent where
  agentId : String
  walletAddress : String
  positionId : String
  tokenAddress : String
  tokenSymbol : Option String
  source : Option String
deriving Repr, DecidableEq

/-- Awaited collaborators of the re-entry handler, as oracles:
the idempotency store's checkAndSet, the config loader, the metrics fetch
feeding the market-cap guard, and the best-effort signal creation (none
models a failed or skipped creation). -/
structure ReentryEnv where
  checkAndSet : String → Bool
  loadAgentConfig : String → AgentTradingConfig
  fetch : String → Option TokenMetrics
  createSignal : String → String → Option String → Option Int

/-- Observable trace of one `handlePositionClosed` run: each Idempotency
Gate call (by key, in order) and each `executePurchase` call. -/
structure ReentryTrace where
  gateKeys : List String
  purchases : List PurchaseCall
deriving Repr, DecidableEq

/-- The idempotency key built by the re-entry handler. -/
def reentryIdempotencyKey (agentId positionId : String) : String :=
  "auto-trade-reentry:" ++ agentId ++ ":" ++ positionId

/-- `handlePositionClosed(event)`: ignore wallet-reset closes, gate on the
(reentry, agent, position) key, require global auto-trade and an enabled
matching token, apply the market-cap guard, create a best-effort signal and
purchase.  Executor errors only affect logging, so the purchase call itself
is the last trace event either way. -/
def handlePositionClosed (env : ReentryEnv) (event : PositionClosedEvent) :
    ReentryTrace :=
  let normalizedToken := jsToLower (jsTrim event.tokenAddress)
  let idempotencyKey := reentryIdempotencyKey event.agentId event.positionId
  -- Wallet reset intentionally emits position_closed for cleanup listeners;
  -- auto-trade must ignore these events.
  if event.source = some "wallet_reset" then ⟨[], []⟩
  else if !env.checkAndSet idempotencyKey then ⟨[idempotencyKey], []⟩
  else
    let config := env.loadAgentConfig event.agentId
    match config.autoTrade with
    | none => ⟨[idempotencyKey], []⟩
    | some autoTrade =>
      if !autoTrade.enabled then ⟨[idempotencyKey], []⟩
      else
        let tokens := autoTrade.tokens.getD []
        match tokens.find? (fun token =>
            token.enabled &&
            jsToLower (jsTrim token.address) == normalizedToken) with
        | none => ⟨[idempotencyKey], []⟩
        | some tokenConfig =>
          let resolvedSymbol :=
            (trimmedOrNone event.tokenSymbol).orElse
              (fun _ => trimmedOrNone tokenConfig.symbol)
          let marketCapGuard :=
            (evaluateAutoTradeMarketCapGuard env.fetch event.tokenAddress
              (some tokenConfig.bounds)).1
          if !marketCapGuard.allowed then ⟨[idempotencyKey], []⟩
          else
            let autoTradeSignalId :=
              env.createSignal event.agentId event.tokenAddress resolvedSymbol
            ⟨[idempotencyKey],
             [⟨event.agentId, none, event.tokenAddress, resolvedSymbol,
               autoTradeSignalId⟩]⟩

/-! Reconciliation manager (`reconcileToken` / `reconcileAgent`). -/

/-- Awaited collaborators of one reconciliation cycle, as oracles:
the idempotency store, the config loader, the agent cache's trading mode,
the wallet repository, the authoritative-store active-position lookup
(`prisma.agentPosition.findFirst` with case-insensitive token match, so it
receives the normalized token), and the metrics fetch feeding the guard. -/
structure ReconcileEnv where
  checkAndSet : String → Bool
  loadAgentConfig : String → AgentTradingConfig
  getTradingMode : String → String
  findWalletByAgentId : String → String → Option String
  findActivePosition : String → String → String → Option String
  fetch : String → Option TokenMetrics

/-- The idempotency key built by `reconcileToken`. -/
def reconcileIdempotencyKey (agentId walletAddress normalizedToken : String) :
    String :=
  "auto-trade-reconcile:" ++ agentId ++ ":" ++ walletAddress ++ ":" ++
    normalizedToken

/-- `reconcileToken(params)`: the observable `executePurchase` calls of
reconciling one token for an agent wallet.  Skips when the idempotency gate
denies, when the authoritative store already has an active position, or when
the market-cap guard denies; executor failures are caught and only logged. -/
def reconcileToken (env : ReconcileEnv) (agentId walletAddress tokenAddress :
    String) (tokenSymbol : Option String)
    (tokenBounds : TokenMarketCapBounds) : List PurchaseCall :=
  let normalizedToken := jsToLower (jsTrim tokenAddress)
  let idempotencyKey :=
    reconcileIdempotencyKey agentId walletAddress normalizedToken
  if !env.checkAndSet idempotencyKey then []
  else
    match env.findActivePosition agentId walletAddress normalizedToken with
    | some _ => []
    | none =>
      let marketCapGuard :=
        (evaluateAutoTradeMarketCapGuard env.fetch normalizedToken
          (some tokenBounds)).1
      if !marketCapGuard.allowed then []
      else
        [⟨agentId, some walletAddress, normalizedToken,
          trimmedOrNone tokenSymbol, none⟩]

/-- `reconcileAgent(agentId)`: skip when auto-trade is disabled, there are no
enabled tokens, or no active wallet (or an empty wallet address, which is
falsy) is found; otherwise reconcile each enabled token in order. -/
def reconcileAgent (env : ReconcileEnv) (agentId : String) :
    List PurchaseCall :=
  match (env.loadAgentConfig agentId).autoTrade with
  | none => []
  | some autoTrade =>
    if !autoTrade.enabled then []
    else
      let enabledTokens := (autoTrade.tokens.getD []).filter (fun t => t.enabled)
      if enabledTokens.isEmpty then []
      else
        let tradingMode := env.getTradingMode agentId
        match env.findWalletByAgentId agentId tradingMode with
        | none => []
        | some walletAddress =>
          if walletAddress.isEmpty then []
          else
            enabledTokens.flatMap (fun token =>
              reconcileToken env agentId walletAddress token.address
                token.symbol token.bounds)

/-! Redis position cache/index layer (`deleteWalletPositions`). -/

/-- Stored position payload as the delete sweep observes it after
JSON.parse: either malformed (the parse throws) or a record with its
optional walletAddress and tokenAddress fields. -/
inductive StoredPosition where
  | malformed
  | parsed (walletAddress : Option String) (tokenAddress : Option String)
deriving Repr, DecidableEq

/-- Redis state as seen through the position service's keyspaces: position
payloads by position id, the AgentPositions index sets by agent id and the
TokenPositions index sets by normalized token address.  A deleted or absent
set key and an empty set are both the empty list (srem/scard/del on Redis
sets cannot tell them apart). -/
structure RedisState where
  payloads : String → Option StoredPosition
  agentSets : String → List String
  tokenSets : String → List String

/-- del of a position payload key. -/
def delPayload (positionId : String) (s : RedisState) : RedisState :=
  { s with payloads := fun k => if k = positionId then none else s.payloads k }

/-- srem of a position id from an AgentPositions set. -/
def sremAgent (agentId positionId : String) (s : RedisState) : RedisState :=
  { s with agentSets := fun k =>
      if k = agentId then (s.agentSets k).filter (fun x => x != positionId)
      else s.agentSets k }

/-- srem of a position id from a TokenPositions set, followed by the
scard-and-del cleanup of the emptied key. -/
def sremTokenAndCleanup (tokenKey positionId : String) (s : RedisState) :
    RedisState :=
  { s with tokenSets := fun k =>
      if k = tokenKey then (s.tokenSets k).filter (fun x => x != positionId)
      else s.tokenSets k }

/-- One iteration of the `deleteWalletPositions` sweep for one position id:
repair a stale index entry, skip a non-matching wallet, purge a matching
payload from the payload store and both indexes, or purge a malformed
payload from the payload store and the agent index only.  Returns the new
state and this iteration's contribution to deletedCount. -/
def deleteWalletStep (agentId walletAddress positionId : String)
    (s : RedisState) : RedisState × Nat :=
  match s.payloads positionId with
  | none =>
    -- Stale agent index entry (position payload missing): repair only.
    (sremAgent agentId positionId s, 0)
  | some (.parsed w tokenAddress) =>
    if w ≠ some walletAddress then (s, 0)
    else
      let s1 := sremAgent agentId positionId (delPayload positionId s)
      let s2 := match tokenAddress with
        | some t => if t.isEmpty then s1
                    else sremTokenAndCleanup (jsToLower t) positionId s1
        | none => s1
      (s2, 1)
  | some .malformed =>
    -- Malformed payload: delete payload and drop index reference.
    (sremAgent agentId positionId (delPayload positionId s), 1)

/-- `deleteWalletPositions(agentId, walletAddress)`: sweep the agent index,
apply `deleteWalletStep` per id, then the final scard-and-del cleanup of an
emptied agent set (a no-op in this model of Redis sets).  Returns the count
of removed position payload keys and the final state. -/
def deleteWalletPositions (agentId walletAddress : String) (s : RedisState) :
    Nat × RedisState :=
  let positionIds := s.agentSets agentId
  positionIds.foldl
    (fun acc positionId =>
      let step := deleteWalletStep agentId walletAddress positionId acc.2
      (acc.1 + step.2, step.1))
    (0, s)

/-! Config-save Immediate-Buy trigger (`updateAgentTradingConfig`). -/

/-- `getImmediateAutoTradeTokens(previousConfig, nextConfig)`: tokens to buy
immediately after config save — all enabled tokens when global auto-trade
turns on, only newly enabled tokens when it stays on, nothing when it is
off. -/
def getImmediateAutoTradeTokens (previousConfig nextConfig :
    AgentTradingConfig) : List AutoTradeTokenConfig :=
  match nextConfig.autoTrade with
  | none => []
  | some nextAutoTrade =>
    if !nextAutoTrade.enabled then []
    else
      let previousEnabled :=
        (previousConfig.autoTrade.map (fun a => a.enabled)).getD false
      let previousEnabledSet :=
        (((previousConfig.autoTrade.bind (fun a => a.tokens)).getD []).filter
          (fun token => token.enabled)).map
          (fun token => jsToLower (jsTrim token.address))
      let nextEnabledTokens :=
        (nextAutoTrade.tokens.getD []).filter (fun token => token.enabled)
      if !previousEnabled then nextEnabledTokens
      else
        nextEnabledTokens.filter (fun token =>
          !(previousEnabledSet.contains (jsToLower (jsTrim token.address))))

/-- Awaited collaborators of the immediate-buy loop: the best-effort
synthetic-signal creation (none models a failed creation). -/
structure ImmediateBuyEnv where
  createSignal : String → Option String → Option Int

/-- The purchase loop body of `updateAgentTradingConfig` over one immediate
token list: per token, create a synthetic signal, then call
`executePurchase` with the trimmed address; executor errors are caught per
token so the loop always continues. -/
def immediateAutoTradeBuysLoop (env : ImmediateBuyEnv) (agentId : String) :
    List AutoTradeTokenConfig → List PurchaseCall
  | [] => []
  | token :: rest =>
    let signalId := env.createSignal token.address token.symbol
    ⟨agentId, none, jsTrim token.address, token.symbol.map jsTrim,
     signalId⟩ :: immediateAutoTradeBuysLoop env agentId rest

/-- The immediate-buy section of `updateAgentTradingConfig` (after a
successful config update with an existing config): one `executePurchase`
invocation per immediate auto-trade token. -/
def immediateAutoTradeBuys (env : ImmediateBuyEnv) (agentId : String)
    (existingConfig updatedConfig : AgentTradingConfig) : List PurchaseCall :=
  immediateAutoTradeBuysLoop env agentId
    (getImmediateAutoTradeTokens existingConfig updatedConfig)

/-- Redis state of the C8 sweep scenario: the agent index for agent-1 holds
one stale id without a payload, one id whose payload belongs to another
wallet, and one id whose payload matches the target wallet; each parsed
payload is indexed under its (lower-cased) token. -/
def sampleWalletSweepState : RedisState where
  payloads := fun k =>
    if k = "other-id" then
      some (StoredPosition.parsed (some "wallet-b") (some "TokB"))
    else if k = "match-id" then
      some (StoredPosition.parsed (some "wallet-a") (some "TokA"))
    else none
  agentSets := fun k =>
    if k = "agent-1" then ["stale-id", "other-id", "match-id"] else []
  tokenSets := fun k =>
    if k = "tokb" then ["other-id"]
    else if k = "toka" then ["match-id"]
    else []

end Nexgent

namespace Nexgent

theorem fetchTokenMetricsMiss_cache_other (apiKey : Option String)
    (provider : String → Nat → ProviderOutcome) (now : Nat)
    (a : String) (s : MetricsCacheState) (addr : String) (hne : addr ≠ a) :
    (fetchTokenMetricsMiss apiKey provider now a s).state.cache addr =
      s.cache addr := by
  unfold fetchTokenMetricsMiss
  cases apiKey with
  | none => rfl
  | some k => cases provider a now <;> simp [cacheResult, hne]

theorem fetchTokenMetrics_cache_other (apiKey : Option String)
    (provider : String → Nat → ProviderOutcome) (now : Nat)
    (a : String) (s : MetricsCacheState) (addr : String) (hne : addr ≠ a) :
    (fetchTokenMetrics apiKey provider now a s).state.cache addr =
      s.cache addr := by
  unfold fetchTokenMetrics
  cases h : s.cache a with
  | some cached =>
    by_cases ht : now < cached.expiresAt
    · simp [ht]
    · simpa [ht] using
        fetchTokenMetricsMiss_cache_other apiKey provider now a s addr hne
  | none => exact fetchTokenMetricsMiss_cache_other apiKey provider now a s addr hne

theorem fetchTokenMetricsMiss_called_cache (apiKey : Option String)
    (provider : String → Nat → ProviderOutcome) (now : Nat)
    (a : String) (s : MetricsCacheState)
    (hc : (fetchTokenMetricsMiss apiKey provider now a s).providerCalled = true) :
    (fetchTokenMetricsMiss apiKey provider now a s).state.cache a =
      some ⟨(fetchTokenMetricsMiss apiKey provider now a s).result,
            now + METRICS_CACHE_TTL_MS⟩ := by
  rcases hk : apiKey with _ | k
  · simp [fetchTokenMetricsMiss, hk] at hc
  · rcases hp : provider a now <;>
      simp [fetchTokenMetricsMiss, hk, hp, cacheResult]

theorem fetchTokenMetricsMiss_not_called_state (apiKey : Option String)
    (provider : String → Nat → ProviderOutcome) (now : Nat)
    (a : String) (s : MetricsCacheState)
    (hc : (fetchTokenMetricsMiss apiKey provider now a s).providerCalled = false) :
    (fetchTokenMetricsMiss apiKey provider now a s).state = s := by
  rcases hk : apiKey with _ | k
  · simp [fetchTokenMetricsMiss, hk]
  · rcases hp : provider a now <;>
      simp [fetchTokenMetricsMiss, hk, hp] at hc

theorem fetchTokenMetrics_called_cache (apiKey : Option String)
    (provider : String → Nat → ProviderOutcome) (now : Nat)
    (a : String) (s : MetricsCacheState)
    (hc : (fetchTokenMetrics apiKey provider now a s).providerCalled = true) :
    (fetchTokenMetrics apiKey provider now a s).state.cache a =
      some ⟨(fetchTokenMetrics apiKey provider now a s).result,
            now + METRICS_CACHE_TTL_MS⟩ := by
  unfold fetchTokenMetrics at hc ⊢
  cases h : s.cache a with
  | some cached =>
    rw [h] at hc
    dsimp only at hc ⊢
    by_cases ht : now < cached.expiresAt
    · simp [ht] at hc
    · simp only [if_neg ht] at hc ⊢
      exact fetchTokenMetricsMiss_called_cache apiKey provider now a s hc
  | none =>
    rw [h] at hc
    dsimp only at hc ⊢
    exact fetchTokenMetricsMiss_called_cache apiKey provider now a s hc

theorem fetchTokenMetrics_called_after_expiry (apiKey : Option String)
    (provider : String → Nat → ProviderOutcome) (now : Nat)
    (a : String) (s : MetricsCacheState) (e : CachedMetrics)
    (h : s.cache a = some e)
    (hc : (fetchTokenMetrics apiKey provider now a s).providerCalled = true) :
    e.expiresAt ≤ now := by
  unfold fetchTokenMetrics at hc
  rw [h] at hc
  by_cases ht : now < e.expiresAt
  · simp [ht] at hc
  · omega

theorem fetchTokenMetrics_cache_mono (apiKey : Option String)
    (provider : String → Nat → ProviderOutcome) (now : Nat)
    (a : String) (s : MetricsCacheState) (e : CachedMetrics)
    (h : s.cache a = some e) :
    ∃ e', (fetchTokenMetrics apiKey provider now a s).state.cache a = some e' ∧
      e.expiresAt ≤ e'.expiresAt := by
  by_cases hc : (fetchTokenMetrics apiKey provider now a s).providerCalled = true
  · refine ⟨⟨(fetchTokenMetrics apiKey provider now a s).result,
      now + METRICS_CACHE_TTL_MS⟩,
      fetchTokenMetrics_called_cache apiKey provider now a s hc, ?_⟩
    have := fetchTokenMetrics_called_after_expiry apiKey provider now a s e h hc
    simp only
    omega
  · -- No provider call: the state is unchanged on every such path.
    have hc' := Bool.eq_false_iff.mpr hc
    have hstate : (fetchTokenMetrics apiKey provider now a s).state = s := by
      unfold fetchTokenMetrics at hc' ⊢
      rw [h] at hc' ⊢
      by_cases ht : now < e.expiresAt
      · simp [ht]
      · simp only [if_neg ht] at hc' ⊢
        exact fetchTokenMetricsMiss_not_called_state apiKey provider now a s hc'
    exact ⟨e, by rw [hstate, h], le_refl _⟩

theorem runFetches_future_calls (apiKey : Option String)
    (provider : String → Nat → ProviderOutcome) :
    ∀ (reqs : List (Nat × String)) (s : MetricsCacheState) (addr : String)
      (B : Nat),
      (∃ e, s.cache addr = some e ∧ B ≤ e.expiresAt) →
      ∀ entry ∈ runFetches apiKey provider reqs s,
        entry.tokenAddress = addr → entry.providerCalled = true →
        B ≤ entry.time := by
  intro reqs
  induction reqs with
  | nil => intro s addr B _ entry hmem; simp [runFetches] at hmem
  | cons req rest ih =>
    rcases req with ⟨t, a⟩
    intro s addr B hinv entry hmem haddr hcall
    rcases hinv with ⟨e, hce, hBe⟩
    rw [runFetches] at hmem
    rcases List.mem_cons.mp hmem with hhead | htail
    · subst hhead
      dsimp only at haddr hcall ⊢
      subst haddr
      have := fetchTokenMetrics_called_after_expiry apiKey provider t
        a s e hce hcall
      omega
    · refine ih (fetchTokenMetrics apiKey provider t a s).state addr B ?_
        entry htail haddr hcall
      by_cases hne : addr = a
      · subst hne
        rcases fetchTokenMetrics_cache_mono apiKey provider t addr s e hce
          with ⟨e', he', hle⟩
        exact ⟨e', he', le_trans hBe hle⟩
      · exact ⟨e, by
          rw [fetchTokenMetrics_cache_other apiKey provider t a s addr hne]
          exact hce, hBe⟩

theorem runFetches_provider_call_separation (apiKey : Option String)
    (provider : String → Nat → ProviderOutcome) :
    ∀ (reqs : List (Nat × String)) (s : MetricsCacheState) (i j : Nat)
      (ei ej : FetchLogEntry),
      (runFetches apiKey provider reqs s)[i]? = some ei →
      (runFetches apiKey provider reqs s)[j]? = some ej →
      i < j → ei.tokenAddress = ej.tokenAddress →
      ei.providerCalled = true → ej.providerCalled = true →
      ei.time + METRICS_CACHE_TTL_MS ≤ ej.time := by
  intro reqs
  induction reqs with
  | nil => intro s i j ei ej hi; simp [runFetches] at hi
  | cons req rest ih =>
    rcases req with ⟨t, a⟩
    intro s i j ei ej hi hj hij haddr hci hcj
    rw [runFetches] at hi hj
    cases i with
    | zero =>
      rw [List.getElem?_cons_zero] at hi
      injection hi with hi
      subst hi
      cases j with
      | zero => omega
      | succ j =>
        rw [List.getElem?_cons_succ] at hj
        have hjmem := List.getElem?_mem hj
        simp only at haddr hci ⊢
        have hcache := fetchTokenMetrics_called_cache apiKey provider t a s hci
        have := runFetches_future_calls apiKey provider rest
          (fetchTokenMetrics apiKey provider t a s).state a
          (t + METRICS_CACHE_TTL_MS)
          ⟨⟨(fetchTokenMetrics apiKey provider t a s).result,
             t + METRICS_CACHE_TTL_MS⟩, hcache, le_refl _⟩
          ej hjmem (by rw [← haddr]) hcj
        omega
    | succ i =>
      cases j with
      | zero => omega
      | succ j =>
        rw [List.getElem?_cons_succ] at hi hj
        exact ih (fetchTokenMetrics apiKey provider t a s).state i j ei ej
          hi hj (by omega) haddr hci hcj

/-- C7: once a metrics cache entry exists — including a cached null result —
every fetch before its expiresAt returns the cached value verbatim, leaves
the cache untouched and makes no external provider call; consequently, in
any sequence of fetch calls, two provider contacts for the same token are at
least one TTL apart, so at most one external call per token occurs within a
single TTL window regardless of call volume. -/
theorem metrics_cache_hit_verbatim_and_ttl_cap :
    (∀ (apiKey : Option String) (provider : String → Nat → ProviderOutcome)
       (now : Nat) (addr : String) (s : MetricsCacheState) (e : CachedMetrics),
       s.cache addr = some e → now < e.expiresAt →
       fetchTokenMetrics apiKey provider now addr s = ⟨e.metrics, s, false⟩) ∧
    (∀ (apiKey : Option String) (provider : String → Nat → ProviderOutcome)
       (reqs : List (Nat × String)) (s : MetricsCacheState) (i j : Nat)
       (ei ej : FetchLogEntry),
       (runFetches apiKey provider reqs s)[i]? = some ei →
       (runFetches apiKey provider reqs s)[j]? = some ej →
       i < j → ei.tokenAddress = ej.tokenAddress →
       ei.providerCalled = true → ej.providerCalled = true →
       ei.time + METRICS_CACHE_TTL_MS ≤ ej.time) := by
  constructor
  · intro apiKey provider now addr s e h ht
    unfold fetchTokenMetrics
    rw [h]
    simp [ht]
  · exact runFetches_provider_call_separation

/-- Witness for C7: a concrete cached-failure entry is served verbatim while
live, and in a run with two provider calls for the same token, the second
call happens a full TTL after the first. -/
theorem metrics_cache_hit_verbatim_and_ttl_cap_witness :
    fetchTokenMetrics (some "key") (fun _ _ => ProviderOutcome.emptyResponse)
        10 "toka" ⟨fun a => if a = "toka" then some ⟨none, 30000⟩ else none⟩ =
      ⟨(none : Option TokenMetrics),
       ⟨fun a => if a = "toka" then some ⟨none, 30000⟩ else none⟩, false⟩ ∧
    (⟨0, "toka", true, none⟩ : FetchLogEntry).time + METRICS_CACHE_TTL_MS ≤
      (⟨30000, "toka", true, none⟩ : FetchLogEntry).time := by
  constructor
  · exact metrics_cache_hit_verbatim_and_ttl_cap.1 (some "key")
      (fun _ _ => ProviderOutcome.emptyResponse) 10 "toka"
      ⟨fun a => if a = "toka" then some ⟨none, 30000⟩ else none⟩
      ⟨none, 30000⟩ (by simp) (by decide)
  · exact metrics_cache_hit_verbatim_and_ttl_cap.2 (some "key")
      (fun _ _ => ProviderOutcome.emptyResponse)
      [(0, "toka"), (30000, "toka")] ⟨fun _ => none⟩ 0 1
      ⟨0, "toka", true, none⟩ ⟨30000, "toka", true, none⟩
      (by decide) (by decide) (by decide) rfl rfl rfl

/-- C2: for every bounds value with at least one field set, if the metrics
fetch resolves to null, or the metrics carry a null market cap, the guard
returns allowed:false with reason metrics_unavailable (source string
market_cap_unavailable) and marketCap:null; in particular it never returns
allowed:true when required market-cap data is unavailable. -/
theorem guard_fail_closed_when_metrics_unavailable
    (fetch : String → Option TokenMetrics) (tokenAddress : String)
    (tokenBounds : Option TokenMarketCapBounds)
    (hb : hasAutoTradeMarketCapBounds tokenBounds = true)
    (hm : (fetch tokenAddress).bind (fun m => m.mcap) = none) :
    (evaluateAutoTradeMarketCapGuard fetch tokenAddress tokenBounds).1 =
      ⟨false, "market_cap_unavailable", none⟩ := by
  unfold evaluateAutoTradeMarketCapGuard
  rw [hb, hm]
  rfl

/-- Witness for C2: bounds with both fields set and a fetch that resolves to
null yield the fail-closed result. -/
theorem guard_fail_closed_when_metrics_unavailable_witness :
    (evaluateAutoTradeMarketCapGuard (fun _ => none) "TokenA"
        (some ⟨some 200000, some 5000000⟩)).1 =
      ⟨false, "market_cap_unavailable", none⟩ :=
  guard_fail_closed_when_metrics_unavailable (fun _ => none) "TokenA"
    (some ⟨some 200000, some 5000000⟩) (by decide) rfl

/-- C3: for every bounds value with both fields unset, or with bounds absent
entirely, the guard returns allowed:true with reason no_bounds_configured
(source string no_market_cap_bounds_configured) and marketCap:null, and
performs zero calls to the metrics fetch function. -/
theorem guard_no_bounds_allows_without_fetch
    (fetch : String → Option TokenMetrics) (tokenAddress : String)
    (tokenBounds : Option TokenMarketCapBounds)
    (hb : tokenBounds = none ∨ tokenBounds = some ⟨none, none⟩) :
    evaluateAutoTradeMarketCapGuard fetch tokenAddress tokenBounds =
      (⟨true, "no_market_cap_bounds_configured", none⟩, 0) := by
  rcases hb with hb | hb <;> subst hb <;> rfl

/-- Witness for C3: absent bounds give the allowed no-bounds result with a
zero fetch count. -/
theorem guard_no_bounds_allows_without_fetch_witness :
    evaluateAutoTradeMarketCapGuard (fun _ => some ⟨some 1, none, none⟩)
        "TokenA" none =
      (⟨true, "no_market_cap_bounds_configured", none⟩, 0) :=
  guard_no_bounds_allows_without_fetch (fun _ => some ⟨some 1, none, none⟩)
    "TokenA" none (Or.inl rfl)

/-- C4: for every bounds value with at least one field set and every resolved
market cap m, the guard result is exactly the spec's case split — below_min
when min is set and m is under it, otherwise above_max when max is set and m
is over it, otherwise in_range — with marketCap echoed as m in all cases. -/
theorem guard_resolved_mcap_matches_spec
    (fetch : String → Option TokenMetrics) (tokenAddress : String)
    (bounds : TokenMarketCapBounds) (m : ℚ)
    (hb : hasAutoTradeMarketCapBounds (some bounds) = true)
    (hm : (fetch tokenAddress).bind (fun mt => mt.mcap) = some m) :
    (evaluateAutoTradeMarketCapGuard fetch tokenAddress (some bounds)).1 =
      guardResultFromSpec bounds m := by
  unfold evaluateAutoTradeMarketCapGuard guardResultFromSpec
  rw [hb, hm]
  rcases bounds with ⟨mn, mx⟩
  rcases mn with _ | mn <;> rcases mx with _ | mx <;>
    simp [Option.bind, Option.any] <;> split_ifs <;> simp_all

/-- Witness for C4: bounds min 200000 / max 5000000 with a resolved market
cap of 100000 give exactly the spec's below_min result echoing 100000. -/
theorem guard_resolved_mcap_matches_spec_witness :
    (evaluateAutoTradeMarketCapGuard
        (fun _ => some ⟨some 100000, some 1000000, some 1000⟩) "TokenA"
        (some ⟨some 200000, some 5000000⟩)).1 =
      guardResultFromSpec ⟨some 200000, some 5000000⟩ 100000 :=
  guard_resolved_mcap_matches_spec
    (fun _ => some ⟨some 100000, some 1000000, some 1000⟩) "TokenA"
    ⟨some 200000, some 5000000⟩ 100000 (by decide) rfl

/-- C5: for every position_closed event whose source equals wallet_reset, the
re-entry handler returns without any Idempotency Gate (checkAndSet) call and
without any executePurchase call. -/
theorem reentry_wallet_reset_ignored (env : ReentryEnv)
    (event : PositionClosedEvent)
    (hsource : event.source = some "wallet_reset") :
    handlePositionClosed env event = ⟨[], []⟩ := by
  unfold handlePositionClosed
  rw [hsource]
  simp

/-- Witness for C5: a concrete wallet_reset-sourced close event produces an
empty trace, even under an environment that would otherwise purchase. -/
theorem reentry_wallet_reset_ignored_witness :
    handlePositionClosed
      ⟨fun _ => true,
       fun _ => ⟨some ⟨true, some [⟨"TokA", some "TKA", true, none, none⟩]⟩⟩,
       fun _ => some ⟨some 1500000, some 1, some 1⟩,
       fun _ _ _ => some 7⟩
      ⟨"agent-1", "wallet-1", "pos-1", "TokA", some "TKA",
       some "wallet_reset"⟩ = ⟨[], []⟩ :=
  reentry_wallet_reset_ignored _ _ rfl

/-- C10: for every position_closed event whose source is absent or equal to
trading, the handler proceeds past the wallet-reset check and calls the
Idempotency Gate exactly once, on the (reentry, agentId, positionId) key;
only a source equal to the exact string wallet_reset is ignored at step 1. -/
theorem reentry_gate_called_unless_wallet_reset (env : ReentryEnv)
    (event : PositionClosedEvent)
    (hsource : event.source = none ∨ event.source = some "trading") :
    (handlePositionClosed env event).gateKeys =
      [reentryIdempotencyKey event.agentId event.positionId] := by
  have hne : ¬ event.source = some "wallet_reset" := by
    rcases hsource with h | h <;> rw [h] <;> simp
  unfold handlePositionClosed
  rw [if_neg hne]
  repeat first | rfl | split | dsimp only

/-- Witness for C10: a concrete trading-sourced close event records exactly
one gate call on the reentry key. -/
theorem reentry_gate_called_unless_wallet_reset_witness :
    (handlePositionClosed
      ⟨fun _ => false,
       fun _ => ⟨none⟩,
       fun _ => none,
       fun _ _ _ => none⟩
      ⟨"agent-1", "wallet-1", "pos-1", "TokA", none,
       some "trading"⟩).gateKeys =
      [reentryIdempotencyKey "agent-1" "pos-1"] :=
  reentry_gate_called_unless_wallet_reset _ _ (Or.inr rfl)

/-- C6: in one reconciliation sweep of an agent whose config has exactly one
enabled auto-trade token, with an active wallet and a fresh idempotency gate:
when the authoritative store reports no existing active position and the
market-cap guard allows, exactly one executePurchase call is made and its
tokenAddress argument is the trimmed lower-cased token address; when the
store reports an existing active position (the store query matches tokens
case-insensitively), zero executePurchase calls are made. -/
theorem reconcile_single_token_purchase (env : ReconcileEnv)
    (agentId : String) (autoTrade : AutoTradeSettings)
    (token : AutoTradeTokenConfig) (walletAddress : String)
    (hcfg : (env.loadAgentConfig agentId).autoTrade = some autoTrade)
    (hen : autoTrade.enabled = true)
    (htoks : (autoTrade.tokens.getD []).filter (fun t => t.enabled) = [token])
    (hwallet : env.findWalletByAgentId agentId (env.getTradingMode agentId) =
      some walletAddress)
    (hwne : walletAddress.isEmpty = false)
    (hgate : env.checkAndSet (reconcileIdempotencyKey agentId walletAddress
      (jsToLower (jsTrim token.address))) = true) :
    (env.findActivePosition agentId walletAddress
        (jsToLower (jsTrim token.address)) = none →
      ((evaluateAutoTradeMarketCapGuard env.fetch
          (jsToLower (jsTrim token.address))
          (some token.bounds)).1).allowed = true →
      reconcileAgent env agentId =
        [⟨agentId, some walletAddress, jsToLower (jsTrim token.address),
          trimmedOrNone token.symbol, none⟩]) ∧
    (∀ positionId,
      env.findActivePosition agentId walletAddress
        (jsToLower (jsTrim token.address)) = some positionId →
      reconcileAgent env agentId = []) := by
  have hagent : reconcileAgent env agentId =
      reconcileToken env agentId walletAddress token.address token.symbol
        token.bounds := by
    unfold reconcileAgent
    rw [hcfg]
    simp [hen, htoks, hwallet, hwne]
  constructor
  · intro hpos hguard
    rw [hagent]
    unfold reconcileToken
    simp [hgate, hpos, hguard]
  · intro positionId hpos
    rw [hagent]
    unfold reconcileToken
    simp [hgate, hpos]

/-- Witness for C6: a concrete environment in which both conjuncts and all
hypotheses are discharged at one agent with one enabled token. -/
theorem reconcile_single_token_purchase_witness :
    (reconcileAgent
        ⟨fun _ => true,
         fun _ => ⟨some ⟨true, some [⟨" TokA ", some "TKA", true,
           some 200000, some 5000000⟩]⟩⟩,
         fun _ => "simulation",
         fun _ _ => some "wallet-1",
         fun _ _ _ => none,
         fun _ => some ⟨some 1500000, some 1, some 1⟩⟩
        "agent-1" =
      [⟨"agent-1", some "wallet-1", "toka", some "TKA", none⟩]) :=
  (reconcile_single_token_purchase
    ⟨fun _ => true,
     fun _ => ⟨some ⟨true, some [⟨" TokA ", some "TKA", true,
       some 200000, some 5000000⟩]⟩⟩,
     fun _ => "simulation",
     fun _ _ => some "wallet-1",
     fun _ _ _ => none,
     fun _ => some ⟨some 1500000, some 1, some 1⟩⟩
    "agent-1"
    ⟨true, some [⟨" TokA ", some "TKA", true, some 200000, some 5000000⟩]⟩
    ⟨" TokA ", some "TKA", true, some 200000, some 5000000⟩
    "wallet-1" rfl rfl (by decide) rfl (by decide) (by decide)).1 rfl
    (by decide)

/-- C8: the wallet sweep on an agent index holding one stale id (no
payload), one payload for a different wallet and one payload for the target
wallet returns a deleted count of 1, leaves the non-matching payload and its
token index entry untouched, removes the stale id from the agent index, and
deletes the matching payload together with its entries in both indexes. -/
theorem delete_wallet_positions_scenario :
    (deleteWalletPositions "agent-1" "wallet-a" sampleWalletSweepState).1 =
      1 ∧
    (deleteWalletPositions "agent-1" "wallet-a"
        sampleWalletSweepState).2.payloads "other-id" =
      some (StoredPosition.parsed (some "wallet-b") (some "TokB")) ∧
    (deleteWalletPositions "agent-1" "wallet-a"
        sampleWalletSweepState).2.tokenSets "tokb" = ["other-id"] ∧
    (deleteWalletPositions "agent-1" "wallet-a"
        sampleWalletSweepState).2.agentSets "agent-1" = ["other-id"] ∧
    (deleteWalletPositions "agent-1" "wallet-a"
        sampleWalletSweepState).2.payloads "match-id" = none ∧
    (deleteWalletPositions "agent-1" "wallet-a"
        sampleWalletSweepState).2.payloads "stale-id" = none ∧
    (deleteWalletPositions "agent-1" "wallet-a"
        sampleWalletSweepState).2.tokenSets "toka" = [] := by
  decide

/-- C9: for every position id whose payload is malformed, the sweep's loop
body deletes the payload key, removes the id from the agent index and counts
it as deleted, but leaves the token index component entirely unchanged; the
token index is also untouched by the missing-payload and non-matching-wallet
branches. -/
theorem delete_wallet_step_malformed_frame (s : RedisState)
    (agentId walletAddress positionId : String)
    (hmal : s.payloads positionId = some StoredPosition.malformed) :
    (deleteWalletStep agentId walletAddress positionId s).2 = 1 ∧
    (deleteWalletStep agentId walletAddress positionId s).1.payloads
      positionId = none ∧
    positionId ∉
      (deleteWalletStep agentId walletAddress positionId s).1.agentSets
        agentId ∧
    (deleteWalletStep agentId walletAddress positionId s).1.tokenSets =
      s.tokenSets ∧
    (∀ (s' : RedisState), s'.payloads positionId = none →
      (deleteWalletStep agentId walletAddress positionId s').1.tokenSets =
        s'.tokenSets) ∧
    (∀ (s' : RedisState) (w t : Option String),
      s'.payloads positionId = some (StoredPosition.parsed w t) →
      w ≠ some walletAddress →
      (deleteWalletStep agentId walletAddress positionId s').1.tokenSets =
        s'.tokenSets) := by
  refine ⟨?_, ?_, ?_, ?_, ?_, ?_⟩
  · unfold deleteWalletStep; rw [hmal]
  · unfold deleteWalletStep; rw [hmal]
    simp [sremAgent, delPayload]
  · unfold deleteWalletStep; rw [hmal]
    simp [sremAgent, delPayload, List.mem_filter]
  · unfold deleteWalletStep; rw [hmal]
    rfl
  · intro s' h; unfold deleteWalletStep; rw [h]
    rfl
  · intro s' w t h hne; unfold deleteWalletStep; rw [h]
    simp [hne]

/-- Witness for C9: the malformed-branch effects at a concrete one-entry
state. -/
theorem delete_wallet_step_malformed_frame_witness :
    (deleteWalletStep "agent-1" "wallet-a" "bad-id"
        ⟨fun k => if k = "bad-id" then some StoredPosition.malformed else none,
         fun k => if k = "agent-1" then ["bad-id"] else [],
         fun _ => ["keep-id"]⟩).2 = 1 ∧
    (deleteWalletStep "agent-1" "wallet-a" "bad-id"
        ⟨fun k => if k = "bad-id" then some StoredPosition.malformed else none,
         fun k => if k = "agent-1" then ["bad-id"] else [],
         fun _ => ["keep-id"]⟩).1.payloads "bad-id" = none ∧
    "bad-id" ∉
      (deleteWalletStep "agent-1" "wallet-a" "bad-id"
        ⟨fun k => if k = "bad-id" then some StoredPosition.malformed else none,
         fun k => if k = "agent-1" then ["bad-id"] else [],
         fun _ => ["keep-id"]⟩).1.agentSets "agent-1" := by
  have h := delete_wallet_step_malformed_frame
    ⟨fun k => if k = "bad-id" then some StoredPosition.malformed else none,
     fun k => if k = "agent-1" then ["bad-id"] else [],
     fun _ => ["keep-id"]⟩
    "agent-1" "wallet-a" "bad-id" (by decide)
  exact ⟨h.1, h.2.1, h.2.2.1⟩

theorem immediateAutoTradeBuysLoop_mem (env : ImmediateBuyEnv)
    (agentId : String) :
    ∀ (l : List AutoTradeTokenConfig) (token : AutoTradeTokenConfig),
      token ∈ l →
      (⟨agentId, none, jsTrim token.address, token.symbol.map jsTrim,
        env.createSignal token.address token.symbol⟩ : PurchaseCall) ∈
        immediateAutoTradeBuysLoop env agentId l := by
  intro l
  induction l with
  | nil => intro token h; simp at h
  | cons t rest ih =>
    intro token h
    rcases List.mem_cons.mp h with h | h
    · subst h
      simp [immediateAutoTradeBuysLoop]
    · simp only [immediateAutoTradeBuysLoop]
      exact List.mem_cons_of_mem _ (ih token h)

/-- Counterexample for C1: it is not the case that, on configuration save,
every token transitioning into an enabled auto-trade state has the
market-cap guard evaluated so that a denied verdict prevents the purchase —
a token whose bounds and metrics make the guard deny still receives an
executePurchase call from the immediate-buy loop. -/
theorem immediate_buy_guard_counterexample :
    ¬ (∀ (env : ImmediateBuyEnv) (fetch : String → Option TokenMetrics)
         (agentId : String) (previousConfig nextConfig : AgentTradingConfig)
         (token : AutoTradeTokenConfig),
         token ∈ getImmediateAutoTradeTokens previousConfig nextConfig →
         ((evaluateAutoTradeMarketCapGuard fetch token.address
            (some token.bounds)).1).allowed = false →
         ∀ call ∈ immediateAutoTradeBuys env agentId previousConfig nextConfig,
           call.tokenAddress ≠ jsTrim token.address) := by
  intro h
  have hc := h ⟨fun _ _ => none⟩ (fun _ => none) "agent-1"
    ⟨some ⟨false, some []⟩⟩
    ⟨some ⟨true, some [⟨"TokA", none, true, some 200000, none⟩]⟩⟩
    ⟨"TokA", none, true, some 200000, none⟩
    (by decide) (by decide)
    ⟨"agent-1", none, "TokA", none, none⟩ (by decide)
  exact hc (by decide)

/-- C1 amended: on configuration save, every token that transitions into an
enabled auto-trade state receives an executePurchase invocation directly,
without the Immediate-Buy trigger evaluating the Market-Cap Guard: the
purchase call is made even when the guard evaluates to denied for that
token. -/
theorem immediate_buy_purchases_despite_guard (env : ImmediateBuyEnv)
    (fetch : String → Option TokenMetrics) (agentId : String)
    (previousConfig nextConfig : AgentTradingConfig)
    (token : AutoTradeTokenConfig)
    (hmem : token ∈ getImmediateAutoTradeTokens previousConfig nextConfig)
    (hdenied : ((evaluateAutoTradeMarketCapGuard fetch token.address
      (some token.bounds)).1).allowed = false) :
    (⟨agentId, none, jsTrim token.address, token.symbol.map jsTrim,
      env.createSignal token.address token.symbol⟩ : PurchaseCall) ∈
      immediateAutoTradeBuys env agentId previousConfig nextConfig :=
  immediateAutoTradeBuysLoop_mem env agentId
    (getImmediateAutoTradeTokens previousConfig nextConfig) token hmem

/-- Witness for the amended C1: the guard-denied token of the counterexample
still appears in the immediate-buy purchase calls. -/
theorem immediate_buy_purchases_despite_guard_witness :
    (⟨"agent-1", none, "TokA", none, none⟩ : PurchaseCall) ∈
      immediateAutoTradeBuys ⟨fun _ _ => none⟩ "agent-1"
        ⟨some ⟨false, some []⟩⟩
        ⟨some ⟨true, some [⟨"TokA", none, true, some 200000, none⟩]⟩⟩ :=
  immediate_buy_purchases_despite_guard ⟨fun _ _ => none⟩ (fun _ => none)
    "agent-1" ⟨some ⟨false, some []⟩⟩
    ⟨some ⟨true, some [⟨"TokA", none, true, some 200000, none⟩]⟩⟩
    ⟨"TokA", none, true, some 200000, none⟩ (by decide) (by decide)
